import Mathlib

/-!
# Code-Demon: shallow embedding of the agent core

This file embeds, in Lean, the core of the Code-Demon repository:

* `code_demon/tools/registry.py` — tool contract, JSON-schema projection,
  fuzzy name suggestions (via Python's `difflib.SequenceMatcher`), and
  `execute_tool` dispatch with its approval gate and timeout handling;
* `code_demon/core/approval.py` — the `ApprovalSystem` danger heuristics;
* `code_demon/core/agent.py` — conversation state, the bounded tool-calling
  cycle (`_process_with_tools`), per-call error folding (`_execute_tool`),
  trimming (`_trim_conversation`) and `reset_conversation`.

Python `dict`s preserve insertion order, so they are modelled as association
lists; `float` similarity scores are modelled as exact rationals; exceptions
are modelled as `Except` values; the asynchronous tool body is modelled as a
function from arguments to an outcome that records whether the body returned,
raised, or exceeded its declared deadline.
-/

namespace CodeDemon

/-- A JSON argument value (arguments the model passes to a tool). -/
inductive JVal
  | s (v : String)
  | n (v : Int)
  | b (v : Bool)
deriving DecidableEq, Repr

/-- A keyword-argument mapping (`Dict[str, Any]` in insertion order). -/
abbrev Args := List (String × JVal)

/-- Source: `registry.py` `ToolCategory`. -/
inductive ToolCategory
  | files | code | git | execution | web | system
deriving DecidableEq, Repr

/-- The `.value` of a `ToolCategory` member. -/
def ToolCategory.val : ToolCategory → String
  | .files => "files"
  | .code => "code"
  | .git => "git"
  | .execution => "execution"
  | .web => "web"
  | .system => "system"

/-- Source: `registry.py` `ToolParameter`.  The Python field `default` uses `None` as
the "not declared" sentinel, so it is an `Option`; `enum` is
`Optional[List[Any]]`. -/
structure ToolParameter where
  name : String
  type : String
  description : String
  required : Bool := true
  default : Option JVal := none
  enum : Option (List JVal) := none
deriving DecidableEq, Repr

/-- Source: `registry.py` `ToolMetadata`. -/
structure ToolMetadata where
  name : String
  description : String
  category : ToolCategory
  parameters : List ToolParameter
  requires_approval : Bool := false
  dangerous : Bool := false
  timeout : Nat := 30
deriving DecidableEq, Repr

/-- Outcome of awaiting a tool body under `asyncio.wait_for`: the body
returned a string, raised an exception whose `str(e)` is `msg`, or exceeded
the deadline of `tool.metadata.timeout` seconds (`asyncio.TimeoutError`). -/
inductive BodyOutcome
  | ok (result : String)
  | raises (msg : String)
  | timesOut
deriving DecidableEq, Repr

/-- Source: `registry.py` `Tool`: metadata plus the (async) `execute` body. -/
structure Tool where
  metadata : ToolMetadata
  execute : Args → BodyOutcome

/-- One value of the `properties` dict produced by `Tool.to_json_schema`:
`enum` / `default` record whether those keys were added to the schema. -/
structure ParamSchema where
  type : String
  description : String
  enum : Option (List JVal)
  default : Option JVal
deriving DecidableEq, Repr

/-- The JSON schema object returned by `Tool.to_json_schema`. -/
structure JsonSchema where
  properties : List (String × ParamSchema)
  required : List String
deriving DecidableEq, Repr

/-- The `param_schema` dict built for one parameter inside
`Tool.to_json_schema`: `enum` is added under Python truthiness
(`if param.enum:` — absent for `None` and for the empty list), `default`
is added when `param.default is not None`. -/
def paramSchemaOf (p : ToolParameter) : ParamSchema :=
  { type := p.type
    description := p.description
    enum := match p.enum with
            | some l => if l = [] then none else some l
            | none => none
    default := p.default }

/-- Source: `properties[k] = v` on an insertion-ordered dict. -/
def dictInsert (d : List (String × ParamSchema)) (k : String) (v : ParamSchema) :
    List (String × ParamSchema) :=
  if d.any (fun q => q.1 = k) then
    d.map (fun q => if q.1 = k then (k, v) else q)
  else d ++ [(k, v)]

/-- Source: `registry.py` `Tool.to_json_schema` (the loop over `metadata.parameters`
filling `properties` and `required`). -/
def Tool.to_json_schema (t : Tool) : JsonSchema :=
  let acc := t.metadata.parameters.foldl
    (fun (acc : List (String × ParamSchema) × List String) p =>
      (dictInsert acc.1 p.name (paramSchemaOf p),
       if p.required then acc.2 ++ [p.name] else acc.2))
    ([], [])
  { properties := acc.1, required := acc.2 }

/-- Source: `registry.py` `ToolRegistry`: the insertion-ordered `_tools` dict and the
optional `_approval_handler` callback. -/
structure ToolRegistry where
  tools : List (String × Tool)
  approval_handler : Option (String → String → Bool)

/-- Source: `ToolRegistry.register`: `self._tools[tool.metadata.name] = tool`
(dict semantics: overwrite in place, else append). -/
def ToolRegistry.register (r : ToolRegistry) (t : Tool) : ToolRegistry :=
  if r.tools.any (fun q => q.1 = t.metadata.name) then
    { r with tools := r.tools.map (fun q => if q.1 = t.metadata.name then (q.1, t) else q) }
  else { r with tools := r.tools ++ [(t.metadata.name, t)] }

/-- Source: `ToolRegistry.get_tool`: `self._tools.get(name)`. -/
def ToolRegistry.get_tool (r : ToolRegistry) (name : String) : Option Tool :=
  (r.tools.find? (fun q => q.1 = name)).map (fun q => q.2)

/-- An entry of the list returned by `ToolRegistry.get_tools_for_llm`. -/
structure LLMToolEntry where
  name : String
  description : String
  parameters : JsonSchema
deriving DecidableEq, Repr

/-- Source: `ToolRegistry.get_tools_for_llm`. -/
def ToolRegistry.getToolsForLLM (r : ToolRegistry) : List LLMToolEntry :=
  r.tools.map (fun q =>
    { name := q.2.metadata.name
      description := q.2.metadata.description
      parameters := q.2.to_json_schema })

/-! ## `difflib.SequenceMatcher` (stdlib), as called with `isjunk=None`

`_find_similar_tools` computes
`SequenceMatcher(None, tool_name.lower(), available_tool.lower()).ratio()`.
With `isjunk=None` the junk set is empty, and the `autojunk` heuristic only
discards "popular" elements of `b` once `len(b) >= 200`. -/

/-- Source: `b2j[c]`: the ascending positions of `c` in `b`, with the `autojunk`
rule (an element occurring more than `len(b)//100 + 1` times is dropped
when `len(b) >= 200`). -/
def b2j (b : List Char) (c : Char) : List Nat :=
  if 200 ≤ b.length ∧ b.length / 100 + 1 < b.count c then []
  else (List.range b.length).filter (fun j => b.get? j = some c)

/-- The running best match of `find_longest_match`. -/
structure FlmSt where
  besti : Nat
  bestj : Nat
  bestsize : Nat
deriving DecidableEq, Repr

/-- Source: `j2len.get (j-1, 0)` on the association list representing `j2len`. -/
def j2get (m : List (Nat × Nat)) (j : Nat) : Nat :=
  match m.find? (fun q => q.1 = j) with
  | some q => q.2
  | none => 0

/-- One row (`for j in b2j.get(a[i], ...)`) of `find_longest_match`:
`js` already has the `j < blo` entries filtered out and stops before the
first `j >= bhi` (the `continue`/`break` in the source). -/
def flmRow (i : Nat) (js : List Nat) (j2len : List (Nat × Nat)) (st : FlmSt) :
    FlmSt × List (Nat × Nat) :=
  js.foldl
    (fun (acc : FlmSt × List (Nat × Nat)) j =>
      let k := (if j = 0 then 0 else j2get j2len (j - 1)) + 1
      let newj2len := acc.2 ++ [(j, k)]
      let st := if acc.1.bestsize < k then
          FlmSt.mk (i + 1 - k) (j + 1 - k) k
        else acc.1
      (st, newj2len))
    (st, [])

/-- The first post-loop extension of `find_longest_match`
(`while besti > alo and bestj > blo and a[besti-1] == b[bestj-1]`; the
junk test is vacuous since the junk set is empty).  In-bounds indexing is
expressed through `get?`. -/
def extendMatchLeft (a b : List Char) (alo blo : Nat) : Nat → FlmSt → FlmSt
  | 0, st => st
  | fuel + 1, st =>
    if alo < st.besti ∧ blo < st.bestj ∧
        (a.get? (st.besti - 1)).isSome ∧
        a.get? (st.besti - 1) = b.get? (st.bestj - 1) then
      extendMatchLeft a b alo blo fuel
        (FlmSt.mk (st.besti - 1) (st.bestj - 1) (st.bestsize + 1))
    else st

/-- The second post-loop extension of `find_longest_match`
(`while besti+bestsize < ahi and bestj+bestsize < bhi and
a[besti+bestsize] == b[bestj+bestsize]`). -/
def extendMatchRight (a b : List Char) (ahi bhi : Nat) : Nat → FlmSt → FlmSt
  | 0, st => st
  | fuel + 1, st =>
    if st.besti + st.bestsize < ahi ∧ st.bestj + st.bestsize < bhi ∧
        (a.get? (st.besti + st.bestsize)).isSome ∧
        a.get? (st.besti + st.bestsize) = b.get? (st.bestj + st.bestsize) then
      extendMatchRight a b ahi bhi fuel
        (FlmSt.mk st.besti st.bestj (st.bestsize + 1))
    else st

/-- Source: `SequenceMatcher.find_longest_match(alo, ahi, blo, bhi)`. -/
def findLongestMatch (a b : List Char) (alo ahi blo bhi : Nat) : Nat × Nat × Nat :=
  let init : FlmSt × List (Nat × Nat) := (FlmSt.mk alo blo 0, [])
  let res := (List.range' alo (ahi - alo)).foldl
    (fun (acc : FlmSt × List (Nat × Nat)) i =>
      let js := ((b2j b (a.getD i ' ')).filter (fun j => blo ≤ j)).takeWhile
        (fun j => j < bhi)
      flmRow i js acc.2 acc.1)
    init
  let st := extendMatchLeft a b alo blo res.1.besti res.1
  let st := extendMatchRight a b ahi bhi ahi st
  (st.besti, st.bestj, st.bestsize)

/-- Total size of the matching blocks of `get_matching_blocks` on the
sub-problem `(alo, ahi, blo, bhi)` (the queue recursion of the source;
only the sum of block sizes is needed for `ratio()`). -/
def matchTotal (a b : List Char) : Nat → Nat × Nat × Nat × Nat → Nat
  | 0, _ => 0
  | fuel + 1, (alo, ahi, blo, bhi) =>
    let m := findLongestMatch a b alo ahi blo bhi
    let i := m.1
    let j := m.2.1
    let k := m.2.2
    if k = 0 then 0
    else
      (if alo < i ∧ blo < j then matchTotal a b fuel (alo, i, blo, j) else 0)
      + k
      + (if i + k < ahi ∧ j + k < bhi then
          matchTotal a b fuel (i + k, ahi, j + k, bhi) else 0)

/-- An exact nonnegative fraction `num / den` (not normalized).  The source
computes similarity scores as Python floats; on the short names involved
every comparison against another score or against the `0.4` threshold is
exact, so the scores are modelled as exact fractions. -/
structure Score where
  num : Nat
  den : Nat
deriving DecidableEq, Repr

/-- Source: `x < y` on fractions, by cross-multiplication (denominators of actual
scores are positive). -/
def Score.blt (x y : Score) : Bool := x.num * y.den < y.num * x.den

/-- Source: `x ≤ y` on fractions, by cross-multiplication. -/
def Score.ble (x y : Score) : Bool := x.num * y.den ≤ y.num * x.den

/-- Source: `SequenceMatcher.ratio() = 2*M / (len(a)+len(b))`. -/
def ratioOf (a b : List Char) : Score :=
  { num := 2 * matchTotal a b (a.length + b.length + 1) (0, a.length, 0, b.length)
    den := a.length + b.length }

/-- Source: `str.lower()`, character-wise (the names and paths involved are ASCII,
where Python's `str.lower` and `Char.toLower` agree). -/
def lowerChars (s : List Char) : List Char := s.map Char.toLower

/-- Source: `p.isPrefixOf`-style check written out: does `hay` start with `needle`? -/
def leadsWith : List Char → List Char → Bool
  | [], _ => true
  | _ :: _, [] => false
  | c :: cs, d :: ds => c = d && leadsWith cs ds

/-- Python's substring test `needle in hay`. -/
def containsSub (needle hay : List Char) : Bool :=
  (List.range (hay.length + 1)).any (fun i => leadsWith needle (hay.drop i))

/-- The similarity score `_find_similar_tools` assigns to one registered
name: the `SequenceMatcher` ratio of the lowercased names, plus `0.3` when
one lowercased name contains the other. -/
def similarityScore (tool_name available_tool : String) : Score :=
  let q := lowerChars tool_name.toList
  let av := lowerChars available_tool.toList
  let r := ratioOf q av
  if containsSub q av || containsSub av q then
    { num := r.num * 10 + 3 * r.den, den := r.den * 10 }  -- r + 0.3, exactly
  else r

/-- Stable descending insertion by score (`list.sort(key=..., reverse=True)`
keeps the original order of equal keys). -/
def insertDesc (x : String × Score) : List (String × Score) → List (String × Score)
  | [] => [x]
  | y :: ys => if Score.blt y.2 x.2 then x :: y :: ys else y :: insertDesc x ys

/-- Stable sort of the `(name, score)` pairs by descending score. -/
def sortDescBySnd (l : List (String × Score)) : List (String × Score) :=
  l.foldl (fun acc x => insertDesc x acc) []

/-- Source: `ToolRegistry._find_similar_tools` with the default `max_suggestions=3`:
score every registered name, sort descending, keep the top 3 with score
strictly above `0.4`. -/
def ToolRegistry.find_similar_tools (r : ToolRegistry) (tool_name : String) :
    List String :=
  let similarities := r.tools.map (fun q => (q.1, similarityScore tool_name q.1))
  let sorted := sortDescBySnd similarities
  ((sorted.take 3).filter (fun q => Score.blt (Score.mk 2 5) q.2)).map (fun q => q.1)

/-- The `categories` dict of the no-suggestions branch of `execute_tool`:
registered names grouped by `metadata.category.value`, in insertion order. -/
def groupByCategory (tools : List (String × Tool)) : List (String × List String) :=
  tools.foldl
    (fun acc q =>
      let c := q.2.metadata.category.val
      if acc.any (fun g => g.1 = c) then
        acc.map (fun g => if g.1 = c then (g.1, g.2 ++ [q.1]) else g)
      else acc ++ [(c, [q.1])])
    []

/-- Ascending stable insertion by key (for `sorted(categories.items())`). -/
def insertAscByKey (x : String × List String) :
    List (String × List String) → List (String × List String)
  | [] => [x]
  | y :: ys => if x.1 < y.1 then x :: y :: ys else y :: insertAscByKey x ys

/-- Source: `sorted(categories.items())` (keys are distinct after grouping). -/
def sortAscByKey (l : List (String × List String)) : List (String × List String) :=
  l.foldl (fun acc x => insertAscByKey x acc) []

/-- The category listing appended to the `ToolNotFound` message when no
suggestion qualifies. -/
def categoryListing (r : ToolRegistry) : String :=
  String.join ((sortAscByKey (groupByCategory r.tools)).map
    (fun g => "\n" ++ g.1 ++ ": " ++ String.intercalate ", " g.2))

/-- The full error message `execute_tool` builds for an unknown tool name. -/
def notFoundMsg (r : ToolRegistry) (name : String) : String :=
  let suggestions := r.find_similar_tools name
  let base := "Tool '" ++ name ++ "' does not exist."
  if suggestions.isEmpty then
    base ++ "\n\nNo similar tools found. Available tools:\n" ++ categoryListing r
  else
    base ++ "\n\nDid you mean one of these?\n" ++
    String.join (suggestions.map (fun s =>
      match r.get_tool s with
      | some t => "  • " ++ s ++ " - " ++ t.metadata.description ++ "\n"
      | none => "")) ++
    "\nIMPORTANT: Only use tools that actually exist. Do not invent tool names."

/-- The exception taxonomy of `registry.py`.  Each constructor carries the
exception's message (`str(e)`); `notFound` additionally records the
suggestion list the message was built from.  `timeoutErr` mirrors the class
`ToolTimeoutError`, which `registry.py` declares but never raises. -/
inductive ToolErr
  | notFound (msg : String) (suggestions : List String)
  | approvalDenied (msg : String)
  | execError (msg : String)
  | timeoutErr (msg : String)
deriving DecidableEq, Repr

/-- Source: `str(e)` of a registry exception. -/
def ToolErr.str : ToolErr → String
  | .notFound msg _ => msg
  | .approvalDenied msg => msg
  | .execError msg => msg
  | .timeoutErr msg => msg

/-- Source: `json.dumps(v)` for an argument value (escaping of special characters
in strings is not modelled; the arguments used here contain none). -/
def JVal.dump : JVal → String
  | .s v => "\"" ++ v ++ "\""
  | .n v => toString v
  | .b v => if v then "true" else "false"

/-- Source: `json.dumps(arguments, indent=2)` for a flat argument mapping. -/
def dumpArgs (args : Args) : String :=
  match args with
  | [] => "\x7b\x7d"
  | _ => "\x7b\n" ++
      String.intercalate ",\n"
        (args.map (fun q => "  \"" ++ q.1 ++ "\": " ++ q.2.dump)) ++
      "\n\x7d"

/-- The `try/except` block of `execute_tool`: awaiting the body under
`asyncio.wait_for(..., timeout=tool.metadata.timeout)`.  Note the source
converts `asyncio.TimeoutError` into a `ToolExecutionError` (the declared
`ToolTimeoutError` class is never raised). -/
def runBody (name : String) (tool : Tool) (arguments : Args) : Except ToolErr String :=
  match tool.execute arguments with
  | .ok result => .ok result
  | .timesOut => .error (.execError
      ("Tool '" ++ name ++ "' timed out after " ++ toString tool.metadata.timeout ++ "s"))
  | .raises msg => .error (.execError ("Tool '" ++ name ++ "' failed: " ++ msg))

/-- Source: `ToolRegistry.execute_tool(name, arguments)`. -/
def ToolRegistry.executeTool (r : ToolRegistry) (name : String) (arguments : Args) :
    Except ToolErr String :=
  match r.get_tool name with
  | none => .error (.notFound (notFoundMsg r name) (r.find_similar_tools name))
  | some tool =>
    if tool.metadata.requires_approval then
      match r.approval_handler with
      | some handler =>
        let reason := "Tool: " ++ name ++ "\nArguments: " ++ dumpArgs arguments
        if handler name reason then runBody name tool arguments
        else .error (.approvalDenied ("Approval denied for tool '" ++ name ++ "'"))
      | none =>
        .error (.approvalDenied
          ("Tool '" ++ name ++ "' requires approval but no handler is set"))
    else runBody name tool arguments

/-! ## `core/approval.py`: the `ApprovalSystem` danger heuristics -/

/-- Source: `approval.py` `DANGEROUS_OPERATIONS`. -/
def DANGEROUS_OPERATIONS : List String :=
  ["write_file", "edit_file", "delete_file", "git_commit", "git_push",
   "execute_command", "run_script"]

/-- Source: `approval.py` `DANGEROUS_PATHS`. -/
def DANGEROUS_PATHS : List String :=
  ["/etc/", "/var/", "/usr/", "/bin/", "/sbin/", "/boot/", "/sys/", "/proc/",
   ".git/", ".env", "config.json", "package.json", "requirements.txt"]

/-- Source: `approval.py` `ApprovalSystem` state (the pluggable handler takes the
`ApprovalRequest`; it plays no role in the claims below, so only its
presence is recorded). -/
structure ApprovalSystem where
  require_approval : Bool := true
  has_handler : Bool := false
  auto_approve_all : Bool := false
deriving DecidableEq, Repr

/-- Source: `ApprovalSystem.is_dangerous_operation`. -/
def isDangerousOperation (operation : String) : Bool :=
  DANGEROUS_OPERATIONS.contains operation

/-- Source: `ApprovalSystem.is_dangerous_path`. -/
def isDangerousPath (path : String) : Bool :=
  DANGEROUS_PATHS.any (fun d => containsSub d.toList (lowerChars path.toList))

/-- Source: `ApprovalSystem.needs_approval(operation, **kwargs)` (a non-string
`path` value would raise in the source and is not modelled). -/
def needsApproval (ap : ApprovalSystem) (operation : String) (kwargs : Args) : Bool :=
  if !ap.require_approval then false
  else if ap.auto_approve_all then false
  else if isDangerousOperation operation then true
  else match kwargs.find? (fun q => q.1 = "path") with
       | some (_, JVal.s p) => isDangerousPath p
       | _ => false

/-! ## `core/agent.py`: conversation state and the tool-calling cycle -/

/-- Source: `llm/base.py` `MessageRole`. -/
inductive MessageRole
  | system | user | assistant | tool
deriving DecidableEq, Repr

/-- Source: `llm/base.py` `Message` (the `tool_calls` field is never set by the
agent and is omitted). -/
structure Msg where
  role : MessageRole
  content : String
  tool_call_id : Option String
deriving DecidableEq, Repr

/-- Source: `llm/base.py` `ToolCall`. -/
structure ToolCallReq where
  id : String
  name : String
  arguments : Args
deriving DecidableEq, Repr

/-- Source: `llm/base.py` `LLMResponse`, restricted to the fields the agent loop
reads (`content`, `tool_calls`). -/
structure LLMResponse where
  content : String
  tool_calls : List ToolCallReq
deriving DecidableEq, Repr

/-- Source: `Agent._execute_tool(tool_call)`: dispatch through the registry; every
exception is caught and turned into the string
`"Error executing {name}: {str(e)}"` (history/achievement/memory
bookkeeping performs no conversation-state change and is omitted). -/
def execToolMsg (r : ToolRegistry) (tc : ToolCallReq) : String :=
  match r.executeTool tc.name tc.arguments with
  | .ok result => result
  | .error e => "Error executing " ++ tc.name ++ ": " ++ e.str

/-- The state of `Agent._process_with_tools` when its `while` loop exits:
the `final_response` so far, the conversation, the number of provider
round trips (`self.llm.chat` calls) consumed, the `depth` counter, and the
response the loop `break`-ed on (`none` when the loop exhausted
`depth < max_tool_depth`). -/
structure LoopResult where
  final : String
  messages : List Msg
  rounds : Nat
  depth : Nat
  exitResp : Option LLMResponse
deriving DecidableEq, Repr

/-- The `while depth < self.max_tool_depth` loop of
`Agent._process_with_tools`.  The provider is modelled as the sequence of
responses it returns (`provider round` is the answer to the `round`-th
`self.llm.chat` call); `fuel` maintains `fuel = max_tool_depth - depth`. -/
def toolLoopAux (reg : ToolRegistry) (provider : Nat → LLMResponse) :
    Nat → Nat → Nat → List Msg → LoopResult
  | 0, depth, round, msgs =>
    { final := "", messages := msgs, rounds := round, depth := depth, exitResp := none }
  | fuel + 1, depth, round, msgs =>
    let resp := provider round
    if resp.tool_calls = [] then
      { final := resp.content, messages := msgs, rounds := round + 1,
        depth := depth, exitResp := some resp }
    else
      let msgs := msgs ++ resp.tool_calls.map
        (fun tc => Msg.mk .tool (execToolMsg reg tc) (some tc.id))
      if resp.content = "" then toolLoopAux reg provider fuel (depth + 1) (round + 1) msgs
      else
        { final := resp.content, messages := msgs, rounds := round + 1,
          depth := depth + 1, exitResp := some resp }

/-- Source: `Agent._process_with_tools`: run the loop, then append the
`"(Max tool depth reached: N)"` notice when `depth >= self.max_tool_depth`. -/
def processWithTools (reg : ToolRegistry) (provider : Nat → LLMResponse)
    (maxDepth : Nat) (msgs : List Msg) : LoopResult :=
  let r := toolLoopAux reg provider maxDepth 0 0 msgs
  if maxDepth ≤ r.depth then
    { r with final := r.final ++ "\n\n(Max tool depth reached: " ++ toString maxDepth ++ ")" }
  else r

/-- Python list slice `l[s:]` for an arbitrary integer start. -/
def pySliceFrom (l : List Msg) (s : Int) : List Msg :=
  if 0 ≤ s then l.drop s.toNat
  else l.drop (l.length - (-s).toNat)

/-- Source: `Agent._trim_conversation`: when the length exceeds
`max_conversation_length` (an `int` setting), keep `messages[0]` and
`messages[-(max_conversation_length - 1):]`.  (The `[]` case would raise
`IndexError` in the source; an agent's conversation is never empty.) -/
def trimConversation (maxLen : Int) (messages : List Msg) : List Msg :=
  if (messages.length : Int) ≤ maxLen then messages
  else
    match messages with
    | [] => []
    | m0 :: _ => m0 :: pySliceFrom messages (1 - maxLen)

/-- The value `Agent.chat` returns together with the conversation state it
leaves behind. -/
structure ChatResult where
  response : String
  messages : List Msg
deriving DecidableEq, Repr

/-- Source: `Agent.chat(user_message)`: append the user message, run the
tool-calling cycle, append the assistant response, trim.  (Memory context
retrieval only alters the user message's content and is modelled with
memory disabled, the default setting; history/achievement bookkeeping does
not touch the conversation.) -/
def Agent.chat (reg : ToolRegistry) (provider : Nat → LLMResponse)
    (maxDepth : Nat) (maxLen : Int) (messages : List Msg) (user_message : String) :
    ChatResult :=
  let msgs := messages ++ [Msg.mk .user user_message none]
  let r := processWithTools reg provider maxDepth msgs
  let msgs := r.messages ++ [Msg.mk .assistant r.final none]
  { response := r.final, messages := trimConversation maxLen msgs }

/-- Source: `Agent.reset_conversation`: keep `messages[0]` if the conversation is
nonempty, else re-run `_initialize_system_prompt`. -/
def resetConversation (systemPrompt : String) (messages : List Msg) : List Msg :=
  match messages with
  | [] => [Msg.mk .system systemPrompt none]
  | m0 :: _ => [m0]

/-- The conversation states an `Agent` can reach: construction
(`_initialize_system_prompt`), then any sequence of `chat` turns (against
any registry contents and any provider behavior), `_trim_conversation`
calls and `reset_conversation` calls.  `maxDepth` and `maxLen` are the
settings read once at construction. -/
inductive Reachable (maxDepth : Nat) (maxLen : Int) (systemPrompt : String) :
    List Msg → Prop
  | init : Reachable maxDepth maxLen systemPrompt [Msg.mk .system systemPrompt none]
  | chatStep (reg : ToolRegistry) (provider : Nat → LLMResponse) (u : String)
      {st : List Msg} (h : Reachable maxDepth maxLen systemPrompt st) :
      Reachable maxDepth maxLen systemPrompt
        (Agent.chat reg provider maxDepth maxLen st u).messages
  | trimStep {st : List Msg} (h : Reachable maxDepth maxLen systemPrompt st) :
      Reachable maxDepth maxLen systemPrompt (trimConversation maxLen st)
  | resetStep {st : List Msg} (h : Reachable maxDepth maxLen systemPrompt st) :
      Reachable maxDepth maxLen systemPrompt (resetConversation systemPrompt st)

/-! ## Registry surgery used to state non-interference facts -/

/-- Replace the `execute` body of the tool registered under `name`
(metadata untouched). Used to state that a denied dispatch never invokes
the body. -/
def setBody (r : ToolRegistry) (name : String) (body : Args → BodyOutcome) :
    ToolRegistry :=
  let ts := r.tools.map
    (fun q => if q.1 = name then (q.1, { q.2 with execute := body }) else q)
  { r with tools := ts }

/-- Set the `dangerous` metadata flag of the tool registered under `name`.
Used to state that dispatch never reads that flag. -/
def setDangerous (r : ToolRegistry) (name : String) (b : Bool) : ToolRegistry :=
  let ts := r.tools.map
    (fun q =>
      if q.1 = name then (q.1, { q.2 with metadata := { q.2.metadata with dangerous := b } })
      else q)
  { r with tools := ts }

/-! ## Concrete instances (used by witnesses and counterexamples) -/

/-- A registered tool with no parameters and a trivial body. -/
def mkTool (name : String) (cat : ToolCategory) : Tool :=
  { metadata := { name := name, description := name ++ " tool", category := cat,
                  parameters := [] }
    execute := fun _ => BodyOutcome.ok "" }

/-- The registry `register_all_tools()` builds in `__main__.py`, with the 19
registered tool names in registration order. -/
def demonRegistry : ToolRegistry :=
  { tools := [("read_file", mkTool "read_file" .files),
      ("write_file", mkTool "write_file" .files),
      ("edit_file", mkTool "edit_file" .files),
      ("search_files", mkTool "search_files" .files),
      ("list_directory", mkTool "list_directory" .files),
      ("git_status", mkTool "git_status" .git),
      ("git_commit", mkTool "git_commit" .git),
      ("git_add", mkTool "git_add" .git),
      ("git_diff", mkTool "git_diff" .git),
      ("git_branch", mkTool "git_branch" .git),
      ("git_checkout", mkTool "git_checkout" .git),
      ("git_push", mkTool "git_push" .git),
      ("git_pull", mkTool "git_pull" .git),
      ("execute_command", mkTool "execute_command" .execution),
      ("run_python", mkTool "run_python" .execution),
      ("run_tests", mkTool "run_tests" .execution),
      ("fetch_url", mkTool "fetch_url" .web),
      ("call_api", mkTool "call_api" .web),
      ("web_search", mkTool "web_search" .web)],
    approval_handler := none }

/-- A gated tool (`requires_approval=True`). -/
def secTool : Tool :=
  { metadata := { name := "sec", description := "gated", category := .system,
                  parameters := [], requires_approval := true }
    execute := fun _ => BodyOutcome.ok "ran" }

/-- A registry holding the gated tool and no approval handler. -/
def regNoHandler : ToolRegistry := { tools := [("sec", secTool)], approval_handler := none }

/-- An approval callback that always declines. -/
def denyHandler : String → String → Bool := fun _ _ => false

/-- A registry holding the gated tool and the always-declining handler. -/
def regDenyHandler : ToolRegistry :=
  { tools := [("sec", secTool)], approval_handler := some denyHandler }

/-- A tool whose body exceeds its declared 1-second deadline. -/
def sleepyTool : Tool :=
  { metadata := { name := "sleepy", description := "sleeps", category := .execution,
                  parameters := [], timeout := 1 }
    execute := fun _ => BodyOutcome.timesOut }

/-- A tool whose body raises an exception with message `boom`. -/
def boomTool : Tool :=
  { metadata := { name := "boom", description := "raises", category := .execution,
                  parameters := [] }
    execute := fun _ => BodyOutcome.raises "boom" }

/-- A registry holding the deadline-exceeding and the raising tool. -/
def regSleepy : ToolRegistry :=
  { tools := [("sleepy", sleepyTool), ("boom", boomTool)], approval_handler := none }

/-- A `write_file` tool declared `dangerous=True` but with
`requires_approval=False`. -/
def writeFileTool : Tool :=
  { metadata := { name := "write_file", description := "writes a file", category := .files,
                  parameters := [], requires_approval := false, dangerous := true }
    execute := fun _ => BodyOutcome.ok "written" }

/-- A registry holding `writeFileTool`, with a handler that would decline. -/
def regWrite : ToolRegistry :=
  { tools := [("write_file", writeFileTool)], approval_handler := some denyHandler }

/-- A provider whose every response carries one tool call together with
non-empty content. -/
def provCallsAndContent : Nat → LLMResponse :=
  fun _ => { content := "done", tool_calls := [ToolCallReq.mk "call-1" "sleepy" []] }

/-- A provider whose every response carries one tool call (for a
nonexistent tool) and empty content: the runaway cycle. -/
def provRunaway : Nat → LLMResponse :=
  fun _ => { content := "", tool_calls := [ToolCallReq.mk "c" "nosuch" []] }

/-- A provider that answers with plain content and no tool calls. -/
def provPlain : Nat → LLMResponse :=
  fun _ => { content := "ok", tool_calls := [] }

/-- A provider whose first response asks for a failing call followed by a
succeeding call, then answers plainly. -/
def provTwoCalls : Nat → LLMResponse :=
  fun round =>
    if round = 0 then
      { content := "",
        tool_calls := [ToolCallReq.mk "c1" "nosuch" [], ToolCallReq.mk "c2" "echo" []] }
    else { content := "finished", tool_calls := [] }

/-- The empty registry. -/
def regEmpty : ToolRegistry := { tools := [], approval_handler := none }

/-- A tool whose body succeeds. -/
def echoTool : Tool :=
  { metadata := { name := "echo", description := "echoes", category := .execution,
                  parameters := [] }
    execute := fun _ => BodyOutcome.ok "echoed" }

/-- A registry on which the first call of `provTwoCalls` fails
(`nosuch` is unregistered) while the second (`echo`) succeeds. -/
def regC5 : ToolRegistry :=
  { tools := [("sleepy", sleepyTool), ("echo", echoTool)], approval_handler := none }

/-- The system message the example agent is constructed with. -/
def sysMsg : Msg := Msg.mk .system "sys" none

/-- The conversation an agent with `max_conversation_length = 1` reaches
after its first `chat` turn: the trimming slip duplicates the system
message. -/
def stMaxLenOne : List Msg := (Agent.chat regEmpty provPlain 10 1 [sysMsg] "hi").messages

/-- A user message. -/
def userHi : Msg := Msg.mk .user "hi" none

/-- A 5-message conversation (system message at index 0). -/
def fiveMsgs : List Msg :=
  [sysMsg, userHi, Msg.mk .assistant "a1" none, Msg.mk .user "u2" none,
   Msg.mk .assistant "a2" none]

/-- The conversation reached after one `chat` turn of an agent configured
with `max_conversation_length = 5`. -/
def stChat5 : List Msg :=
  (Agent.chat regEmpty provPlain 10 5 [Msg.mk .system "sys" none] "hi").messages

/-- A parameter declaring `enum=[]` (Python-falsy, hence dropped from the
projected schema). -/
def pEmptyEnum : ToolParameter :=
  { name := "p", type := "string", description := "d", required := true,
    default := none, enum := some [] }

/-- A tool declaring a single parameter with `enum=[]`. -/
def toolEmptyEnum : Tool :=
  { metadata := { name := "t", description := "t", category := .system,
                  parameters := [pEmptyEnum] }
    execute := fun _ => BodyOutcome.ok "" }

/-- A tool with a representative parameter list: required/optional,
with/without `enum` and `default`. -/
def toolRoundTrip : Tool :=
  { metadata := { name := "rt", description := "round trip", category := .files,
                  parameters :=
                    [{ name := "a", type := "string", description := "da",
                       required := true, default := none, enum := none },
                     { name := "b", type := "number", description := "db",
                       required := false, default := some (JVal.n 3),
                       enum := some [JVal.n 1, JVal.n 3] },
                     { name := "c", type := "boolean", description := "dc",
                       required := true, default := none, enum := none }] }
    execute := fun _ => BodyOutcome.ok "" }

/-- The lookup `properties[name]` on a projected schema. -/
def JsonSchema.propLookup (s : JsonSchema) (n : String) : Option ParamSchema :=
  (s.properties.find? (fun q => q.1 = n)).map (fun q => q.2)

/-- C9's round-trip property as the spec states it, for one parameter of a
tool: the `enum` and `default` keys appear on that parameter's projected
schema iff they were declared on the parameter.  (Stated from the spec's
words, to be compared with what `to_json_schema` actually does.) -/
def enumDefaultIffDeclaredAt (t : Tool) (p : ToolParameter) : Prop :=
  ((t.to_json_schema.propLookup p.name).bind (fun ps => ps.enum)).isSome
      = p.enum.isSome ∧
  ((t.to_json_schema.propLookup p.name).bind (fun ps => ps.default)).isSome
      = p.default.isSome

/-! ## Lemmas: registry surgery -/

theorem setBody_handler (r : ToolRegistry) (name : String) (body : Args → BodyOutcome) :
    (setBody r name body).approval_handler = r.approval_handler := rfl

theorem setDangerous_handler (r : ToolRegistry) (name : String) (b : Bool) :
    (setDangerous r name b).approval_handler = r.approval_handler := rfl

theorem get_tool_setBody (r : ToolRegistry) (name : String) (body : Args → BodyOutcome) :
    (setBody r name body).get_tool name
      = (r.get_tool name).map (fun t => { t with execute := body }) := by
  unfold setBody ToolRegistry.get_tool
  induction r.tools with
  | nil => rfl
  | cons hd tl ih =>
    by_cases h : hd.1 = name
    · simp [List.find?_cons, h]
    · simpa [List.find?_cons, h] using ih

theorem get_tool_setDangerous (r : ToolRegistry) (name : String) (b : Bool) :
    (setDangerous r name b).get_tool name
      = (r.get_tool name).map
          (fun t => { t with metadata := { t.metadata with dangerous := b } }) := by
  unfold setDangerous ToolRegistry.get_tool
  induction r.tools with
  | nil => rfl
  | cons hd tl ih =>
    by_cases h : hd.1 = name
    · simp [List.find?_cons, h]
    · simpa [List.find?_cons, h] using ih

/-! ## Claim theorems -/

/-- Claim C1 (confirmed): for a registered tool with
`metadata.requires_approval = True`, `execute_tool` raises
`ToolApprovalDenied` when no approval handler is configured on the registry
(fail closed; the registry consults no global approval flag — its dispatch
reads only its own `_approval_handler` field), and likewise when the
configured handler, invoked with the tool name and the reason string built
from the name and arguments, returns false; in either case the outcome is
the same for every possible execute body, i.e. the body is never invoked. -/
theorem C1_requires_approval_fail_closed
    (reg : ToolRegistry) (name : String) (args : Args) (tool : Tool)
    (hlook : reg.get_tool name = some tool)
    (hreq : tool.metadata.requires_approval = true) :
    (reg.approval_handler = none →
      reg.executeTool name args = Except.error (ToolErr.approvalDenied
        ("Tool '" ++ name ++ "' requires approval but no handler is set"))) ∧
    (∀ handler, reg.approval_handler = some handler →
      handler name ("Tool: " ++ name ++ "\nArguments: " ++ dumpArgs args) = false →
      reg.executeTool name args = Except.error (ToolErr.approvalDenied
        ("Approval denied for tool '" ++ name ++ "'"))) ∧
    (∀ body : Args → BodyOutcome,
      (reg.approval_handler = none ∨
        ∃ handler, reg.approval_handler = some handler ∧
          handler name ("Tool: " ++ name ++ "\nArguments: " ++ dumpArgs args) = false) →
      (setBody reg name body).executeTool name args = reg.executeTool name args) := by
  refine ⟨?_, ?_, ?_⟩
  · intro hnone
    simp [ToolRegistry.executeTool, hlook, hreq, hnone]
  · intro handler hsome hfalse
    simp [ToolRegistry.executeTool, hlook, hreq, hsome, hfalse]
  · intro body hden
    have hlook' := get_tool_setBody reg name body
    rw [hlook] at hlook'
    rcases hden with hnone | ⟨handler, hsome, hfalse⟩
    · simp [ToolRegistry.executeTool, hlook, hlook', hreq, hnone, setBody_handler]
    · simp [ToolRegistry.executeTool, hlook, hlook', hreq, hsome, hfalse, setBody_handler]

/-- Witness for C1: the gated tool `sec`, dispatched against a registry
with no handler and against a registry whose handler declines. -/
theorem C1_witness :
    regNoHandler.executeTool "sec" [] = Except.error (ToolErr.approvalDenied
      "Tool 'sec' requires approval but no handler is set") ∧
    regDenyHandler.executeTool "sec" [] = Except.error (ToolErr.approvalDenied
      "Approval denied for tool 'sec'") :=
  ⟨(C1_requires_approval_fail_closed regNoHandler "sec" [] secTool rfl rfl).1 rfl,
   (C1_requires_approval_fail_closed regDenyHandler "sec" [] secTool rfl rfl).2.1
      denyHandler rfl rfl⟩

/-- Claim C4 (code bug): a tool body exceeding its declared
`metadata.timeout` makes `execute_tool` raise the *generic*
`ToolExecutionError` (message `"Tool '<name>' timed out after <t>s"`), not
the distinct `ToolTimeoutError` class that `registry.py` declares for this
purpose and never raises; any other exception is re-raised as
`ToolExecutionError` carrying the original message, as the claim states. -/
theorem C4_timeout_raises_generic_execution_error :
    regSleepy.executeTool "sleepy" []
      = Except.error (ToolErr.execError "Tool 'sleepy' timed out after 1s") ∧
    regSleepy.executeTool "boom" []
      = Except.error (ToolErr.execError "Tool 'boom' failed: boom") := by
  exact ⟨rfl, rfl⟩

/-- Claim C10 (confirmed): whether dispatch requests approval depends only on
`metadata.requires_approval`.  With `requires_approval = False` the tool
executes directly: the configured handler (if any) is never consulted, the
`dangerous` flag can be flipped without changing the outcome, and the
outcome is the same even when `ApprovalSystem.needs_approval` (the
dangerous-operation set and dangerous-path heuristics of `approval.py`)
would return true for this very operation and argument mapping —
`execute_tool` never invokes the `ApprovalSystem`. -/
theorem C10_dispatch_reads_only_requires_approval
    (reg : ToolRegistry) (name : String) (args : Args) (tool : Tool)
    (hlook : reg.get_tool name = some tool)
    (hreq : tool.metadata.requires_approval = false) :
    reg.executeTool name args = runBody name tool args ∧
    (∀ h, (ToolRegistry.mk reg.tools h).executeTool name args
        = reg.executeTool name args) ∧
    (∀ b, (setDangerous reg name b).executeTool name args
        = reg.executeTool name args) ∧
    (∀ ap : ApprovalSystem, needsApproval ap name args = true →
      reg.executeTool name args = runBody name tool args) := by
  have hmain : reg.executeTool name args = runBody name tool args := by
    simp [ToolRegistry.executeTool, hlook, hreq]
  refine ⟨hmain, ?_, ?_, fun _ _ => hmain⟩
  · intro h
    have hlook2 : (ToolRegistry.mk reg.tools h).get_tool name = some tool := hlook
    simp [ToolRegistry.executeTool, hlook, hlook2, hreq]
  · intro b
    have hlook' := get_tool_setDangerous reg name b
    rw [hlook] at hlook'
    simp [ToolRegistry.executeTool, hlook, hlook', hreq, hmain, runBody]

/-- Witness for C10: `write_file` with `dangerous=True` and a path argument
(`/etc/passwd`) that the `ApprovalSystem` heuristics flag as needing
approval still executes with no confirmation, because its metadata says
`requires_approval=False` — even though the registry's handler would
decline. -/
theorem C10_witness :
    needsApproval {} "write_file" [("path", JVal.s "/etc/passwd")] = true ∧
    regWrite.executeTool "write_file" [("path", JVal.s "/etc/passwd")]
      = Except.ok "written" :=
  ⟨by decide,
   ((C10_dispatch_reads_only_requires_approval regWrite "write_file"
      [("path", JVal.s "/etc/passwd")] writeFileTool rfl rfl).2.2.2
      {} (by decide)).trans rfl⟩

/-! ## Lemmas: the tool-calling loop -/

/-- One iteration with no tool calls: the loop exits with the content. -/
theorem toolLoopAux_exit_plain {provider : Nat → LLMResponse} {round : Nat}
    (reg : ToolRegistry) (fuel depth : Nat) (msgs : List Msg)
    (h : (provider round).tool_calls = []) :
    toolLoopAux reg provider (fuel + 1) depth round msgs
      = LoopResult.mk (provider round).content msgs (round + 1) depth
          (some (provider round)) := by
  simp [toolLoopAux, h]

/-- One iteration with tool calls and empty content: every call is
dispatched in order, one tool message per call, and the loop recurses. -/
theorem toolLoopAux_cont {provider : Nat → LLMResponse} {round : Nat}
    (reg : ToolRegistry) (fuel depth : Nat) (msgs : List Msg)
    (h : ¬ (provider round).tool_calls = []) (hc : (provider round).content = "") :
    toolLoopAux reg provider (fuel + 1) depth round msgs
      = toolLoopAux reg provider fuel (depth + 1) (round + 1)
          (msgs ++ (provider round).tool_calls.map
            (fun tc => Msg.mk .tool (execToolMsg reg tc) (some tc.id))) := by
  simp [toolLoopAux, h, hc]

/-- One iteration with tool calls and non-empty content: every call is
dispatched, then the loop exits with the content. -/
theorem toolLoopAux_exit_calls {provider : Nat → LLMResponse} {round : Nat}
    (reg : ToolRegistry) (fuel depth : Nat) (msgs : List Msg)
    (h : ¬ (provider round).tool_calls = []) (hc : ¬ (provider round).content = "") :
    toolLoopAux reg provider (fuel + 1) depth round msgs
      = LoopResult.mk (provider round).content
          (msgs ++ (provider round).tool_calls.map
            (fun tc => Msg.mk .tool (execToolMsg reg tc) (some tc.id)))
          (round + 1) (depth + 1) (some (provider round)) := by
  simp [toolLoopAux, h, hc]

/-- The loop makes at most `fuel` provider round trips. -/
theorem toolLoopAux_rounds_le (reg : ToolRegistry) (provider : Nat → LLMResponse) :
    ∀ (fuel depth round : Nat) (msgs : List Msg),
    (toolLoopAux reg provider fuel depth round msgs).rounds ≤ round + fuel := by
  intro fuel
  induction fuel with
  | zero => intro depth round msgs; simp [toolLoopAux]
  | succ fuel ih =>
    intro depth round msgs
    by_cases h : (provider round).tool_calls = []
    · rw [toolLoopAux_exit_plain reg fuel depth msgs h]
      show round + 1 ≤ round + (fuel + 1)
      omega
    · by_cases hc : (provider round).content = ""
      · rw [toolLoopAux_cont reg fuel depth msgs h hc]
        calc (toolLoopAux reg provider fuel (depth + 1) (round + 1) _).rounds
            ≤ (round + 1) + fuel := ih _ _ _
          _ ≤ round + (fuel + 1) := by omega
      · rw [toolLoopAux_exit_calls reg fuel depth msgs h hc]
        show round + 1 ≤ round + (fuel + 1)
        omega

/-- When the loop exhausts its depth budget, the accumulated final text is
empty and the depth counter has advanced by exactly `fuel`. -/
theorem toolLoopAux_exhaust (reg : ToolRegistry) (provider : Nat → LLMResponse) :
    ∀ (fuel depth round : Nat) (msgs : List Msg),
    (toolLoopAux reg provider fuel depth round msgs).exitResp = none →
    (toolLoopAux reg provider fuel depth round msgs).final = "" ∧
    (toolLoopAux reg provider fuel depth round msgs).depth = depth + fuel := by
  intro fuel
  induction fuel with
  | zero => intro depth round msgs _; simp [toolLoopAux]
  | succ fuel ih =>
    intro depth round msgs hnone
    by_cases h : (provider round).tool_calls = []
    · rw [toolLoopAux_exit_plain reg fuel depth msgs h] at hnone ⊢
      exact absurd hnone (by simp)
    · by_cases hc : (provider round).content = ""
      · rw [toolLoopAux_cont reg fuel depth msgs h hc] at hnone ⊢
        refine ⟨(ih _ _ _ hnone).1, ?_⟩
        rw [(ih _ _ _ hnone).2]; omega
      · rw [toolLoopAux_exit_calls reg fuel depth msgs h hc] at hnone ⊢
        exact absurd hnone (by simp)

/-- The loop only ever appends messages, and everything it appends is a
tool-role message. -/
theorem toolLoopAux_messages (reg : ToolRegistry) (provider : Nat → LLMResponse) :
    ∀ (fuel depth round : Nat) (msgs : List Msg),
    ∃ suffix, (toolLoopAux reg provider fuel depth round msgs).messages
        = msgs ++ suffix ∧ ∀ m ∈ suffix, m.role = MessageRole.tool := by
  intro fuel
  induction fuel with
  | zero =>
    intro depth round msgs
    exact ⟨[], by simp [toolLoopAux]⟩
  | succ fuel ih =>
    intro depth round msgs
    by_cases h : (provider round).tool_calls = []
    · exact ⟨[], by simp [toolLoopAux_exit_plain reg fuel depth msgs h]⟩
    · by_cases hc : (provider round).content = ""
      · rw [toolLoopAux_cont reg fuel depth msgs h hc]
        obtain ⟨suffix, hs, hrole⟩ := ih (depth + 1) (round + 1)
          (msgs ++ (provider round).tool_calls.map
            (fun tc => Msg.mk .tool (execToolMsg reg tc) (some tc.id)))
        refine ⟨(provider round).tool_calls.map
            (fun tc => Msg.mk .tool (execToolMsg reg tc) (some tc.id)) ++ suffix,
          by rw [hs, List.append_assoc], ?_⟩
        intro m hm
        rcases List.mem_append.mp hm with hm | hm
        · obtain ⟨tc, _, rfl⟩ := List.mem_map.mp hm; rfl
        · exact hrole m hm
      · rw [toolLoopAux_exit_calls reg fuel depth msgs h hc]
        refine ⟨(provider round).tool_calls.map
            (fun tc => Msg.mk .tool (execToolMsg reg tc) (some tc.id)), rfl, ?_⟩
        intro m hm
        obtain ⟨tc, _, rfl⟩ := List.mem_map.mp hm; rfl

/-- Whenever the loop exits on a response, that response carried no tool
calls or carried non-empty content, and the final text is its content. -/
theorem toolLoopAux_exit_inv (reg : ToolRegistry) (provider : Nat → LLMResponse) :
    ∀ (fuel depth round : Nat) (msgs : List Msg) (resp : LLMResponse),
    (toolLoopAux reg provider fuel depth round msgs).exitResp = some resp →
    (resp.tool_calls = [] ∨ ¬ resp.content = "") ∧
    (toolLoopAux reg provider fuel depth round msgs).final = resp.content := by
  intro fuel
  induction fuel with
  | zero => intro depth round msgs resp h; exact absurd h (by simp [toolLoopAux])
  | succ fuel ih =>
    intro depth round msgs resp hexit
    by_cases h : (provider round).tool_calls = []
    · rw [toolLoopAux_exit_plain reg fuel depth msgs h] at hexit ⊢
      obtain rfl : provider round = resp := by simpa using hexit
      exact ⟨Or.inl h, rfl⟩
    · by_cases hc : (provider round).content = ""
      · rw [toolLoopAux_cont reg fuel depth msgs h hc] at hexit ⊢
        exact ih _ _ _ resp hexit
      · rw [toolLoopAux_exit_calls reg fuel depth msgs h hc] at hexit ⊢
        obtain rfl : provider round = resp := by simpa using hexit
        exact ⟨Or.inr hc, rfl⟩

/-- Source: `_process_with_tools` leaves `rounds`, `depth`, `messages` and
`exitResp` of the loop result unchanged (it only amends `final`). -/
theorem processWithTools_fields (reg : ToolRegistry) (provider : Nat → LLMResponse)
    (maxDepth : Nat) (msgs : List Msg) :
    (processWithTools reg provider maxDepth msgs).rounds
        = (toolLoopAux reg provider maxDepth 0 0 msgs).rounds ∧
    (processWithTools reg provider maxDepth msgs).exitResp
        = (toolLoopAux reg provider maxDepth 0 0 msgs).exitResp ∧
    (processWithTools reg provider maxDepth msgs).messages
        = (toolLoopAux reg provider maxDepth 0 0 msgs).messages := by
  unfold processWithTools
  by_cases h : maxDepth ≤ (toolLoopAux reg provider maxDepth 0 0 msgs).depth <;>
    simp [h]

/-! ## Claim theorems: the tool-calling cycle -/

/-- Counterexample to **C2** as stated: the claim says the cycle takes a
response's content as the final answer and exits *only when that response
carries no tool calls*, and otherwise always continues with another
provider round trip.  But when a response carries tool calls *and*
non-empty content, `_process_with_tools` dispatches the calls and then
exits with that content after a single round trip. -/
theorem C2_counterexample :
    (processWithTools regSleepy provCallsAndContent 5 []).exitResp
        = some (provCallsAndContent 0) ∧
    (provCallsAndContent 0).tool_calls.length = 1 ∧
    (processWithTools regSleepy provCallsAndContent 5 []).rounds = 1 ∧
    (processWithTools regSleepy provCallsAndContent 5 []).final = "done" := by
  decide

/-- Claim C2 (amended): within one turn's cycle, a response with no tool
calls ends the turn with its content; a response with tool calls has every
listed call dispatched in the order returned, with one tool-role message
appended per call (keyed by the call's id), after which the cycle continues
with another provider round trip *only if* the response's content is empty
— with tool calls and non-empty content it exits with that content; hence
every response the cycle exits on carried no tool calls or non-empty
content. -/
theorem C2_exit_and_dispatch_discipline (reg : ToolRegistry)
    (provider : Nat → LLMResponse) (fuel depth round : Nat) (msgs : List Msg) :
    ((provider round).tool_calls = [] →
      toolLoopAux reg provider (fuel + 1) depth round msgs
        = LoopResult.mk (provider round).content msgs (round + 1) depth
            (some (provider round))) ∧
    (¬ (provider round).tool_calls = [] → (provider round).content = "" →
      toolLoopAux reg provider (fuel + 1) depth round msgs
        = toolLoopAux reg provider fuel (depth + 1) (round + 1)
            (msgs ++ (provider round).tool_calls.map
              (fun tc => Msg.mk .tool (execToolMsg reg tc) (some tc.id)))) ∧
    (¬ (provider round).tool_calls = [] → ¬ (provider round).content = "" →
      toolLoopAux reg provider (fuel + 1) depth round msgs
        = LoopResult.mk (provider round).content
            (msgs ++ (provider round).tool_calls.map
              (fun tc => Msg.mk .tool (execToolMsg reg tc) (some tc.id)))
            (round + 1) (depth + 1) (some (provider round))) ∧
    (∀ resp, (toolLoopAux reg provider fuel depth round msgs).exitResp = some resp →
      resp.tool_calls = [] ∨ ¬ resp.content = "") := by
  refine ⟨fun h => toolLoopAux_exit_plain reg fuel depth msgs h,
    fun h hc => toolLoopAux_cont reg fuel depth msgs h hc,
    fun h hc => toolLoopAux_exit_calls reg fuel depth msgs h hc,
    fun resp hexit => (toolLoopAux_exit_inv reg provider fuel depth round msgs resp hexit).1⟩

/-- Witness for the amended C2, exercising all three iteration shapes and
the exit characterization on concrete providers. -/
theorem C2_witness :
    toolLoopAux regEmpty provPlain (4 + 1) 0 0 []
      = LoopResult.mk (provPlain 0).content [] 1 0 (some (provPlain 0)) ∧
    toolLoopAux regC5 provTwoCalls (4 + 1) 0 0 []
      = toolLoopAux regC5 provTwoCalls 4 1 1
          ((provTwoCalls 0).tool_calls.map
            (fun tc => Msg.mk .tool (execToolMsg regC5 tc) (some tc.id))) ∧
    toolLoopAux regSleepy provCallsAndContent (4 + 1) 0 0 []
      = LoopResult.mk (provCallsAndContent 0).content
          ((provCallsAndContent 0).tool_calls.map
            (fun tc => Msg.mk .tool (execToolMsg regSleepy tc) (some tc.id)))
          1 1 (some (provCallsAndContent 0)) ∧
    ((provPlain 0).tool_calls = [] ∨ ¬ (provPlain 0).content = "") := by
  refine ⟨?_, ?_, ?_, ?_⟩
  · have h := (C2_exit_and_dispatch_discipline regEmpty provPlain 4 0 0 []).1 (by decide)
    simpa using h
  · have h := (C2_exit_and_dispatch_discipline regC5 provTwoCalls 4 0 0 []).2.1
      (by decide) (by decide)
    simpa using h
  · have h := (C2_exit_and_dispatch_discipline regSleepy provCallsAndContent 4 0 0 []).2.2.1
      (by decide) (by decide)
    simpa using h
  · exact (C2_exit_and_dispatch_discipline regEmpty provPlain 4 0 0 []).2.2.2
      (provPlain 0) (by decide)

/-- Claim C3 (confirmed): per user turn the cycle makes at most
`max_tool_depth` provider round trips, and when the loop ends by
exhausting the depth budget (no final content produced), the text `chat`
returns carries the explicit `(Max tool depth reached: N)` notice. -/
theorem C3_depth_bound_and_notice (reg : ToolRegistry)
    (provider : Nat → LLMResponse) (maxDepth : Nat) (msgs : List Msg) :
    (processWithTools reg provider maxDepth msgs).rounds ≤ maxDepth ∧
    ((processWithTools reg provider maxDepth msgs).exitResp = none →
      ∃ s, (processWithTools reg provider maxDepth msgs).final
          = s ++ "\n\n(Max tool depth reached: " ++ toString maxDepth ++ ")") ∧
    (∀ (maxLen : Int) (st : List Msg) (u : String),
      (Agent.chat reg provider maxDepth maxLen st u).response
        = (processWithTools reg provider maxDepth
            (st ++ [Msg.mk .user u none])).final) := by
  refine ⟨?_, ?_, fun _ _ _ => rfl⟩
  · rw [(processWithTools_fields reg provider maxDepth msgs).1]
    simpa using toolLoopAux_rounds_le reg provider maxDepth 0 0 msgs
  · intro hnone
    rw [(processWithTools_fields reg provider maxDepth msgs).2.1] at hnone
    obtain ⟨hfin, hdep⟩ := toolLoopAux_exhaust reg provider maxDepth 0 0 msgs hnone
    refine ⟨"", ?_⟩
    unfold processWithTools
    rw [if_pos (by omega), hfin]

/-- Witness for C3: a runaway provider (always one failing tool call, no
content) against depth budget 2. -/
theorem C3_witness :
    (processWithTools regEmpty provRunaway 2 []).rounds ≤ 2 ∧
    (∃ s, (processWithTools regEmpty provRunaway 2 []).final
        = s ++ "\n\n(Max tool depth reached: " ++ toString 2 ++ ")") :=
  ⟨(C3_depth_bound_and_notice regEmpty provRunaway 2 []).1,
   (C3_depth_bound_and_notice regEmpty provRunaway 2 []).2.1 (by decide)⟩

/-- Claim C5 (confirmed): every exception a single dispatch raises (unknown
name, approval denial, timeout, tool-body failure) is converted by
`Agent._execute_tool` into the text `"Error executing <name>: <str(e)>"`,
which becomes the content of that call's tool-role message; the remaining
calls of the same response still execute, each appending its own message in
order; and `chat` still returns the cycle's final text normally. -/
theorem C5_failures_become_messages (reg : ToolRegistry)
    (provider : Nat → LLMResponse) (fuel depth round : Nat) (msgs : List Msg) :
    (∀ (tc : ToolCallReq) (e : ToolErr),
      reg.executeTool tc.name tc.arguments = Except.error e →
      execToolMsg reg tc = "Error executing " ++ tc.name ++ ": " ++ e.str) ∧
    (¬ (provider round).tool_calls = [] →
      ∃ rest, (toolLoopAux reg provider (fuel + 1) depth round msgs).messages
          = msgs ++ (provider round).tool_calls.map
              (fun tc => Msg.mk .tool (execToolMsg reg tc) (some tc.id)) ++ rest) ∧
    (∀ (maxDepth : Nat) (maxLen : Int) (st : List Msg) (u : String),
      (Agent.chat reg provider maxDepth maxLen st u).response
        = (processWithTools reg provider maxDepth
            (st ++ [Msg.mk .user u none])).final) := by
  refine ⟨?_, ?_, fun _ _ _ _ => rfl⟩
  · intro tc e he
    unfold execToolMsg
    rw [he]
  · intro h
    by_cases hc : (provider round).content = ""
    · rw [toolLoopAux_cont reg fuel depth msgs h hc]
      obtain ⟨suffix, hs, _⟩ := toolLoopAux_messages reg provider fuel (depth + 1)
        (round + 1) (msgs ++ (provider round).tool_calls.map
          (fun tc => Msg.mk .tool (execToolMsg reg tc) (some tc.id)))
      exact ⟨suffix, by rw [hs, List.append_assoc]⟩
    · rw [toolLoopAux_exit_calls reg fuel depth msgs h hc]
      exact ⟨[], by simp⟩

/-- Witness for C5: on `regC5` the call `nosuch` fails with `ToolNotFound`
and its error text becomes the first tool message, while the subsequent
`echo` call still executes. -/
theorem C5_witness :
    execToolMsg regC5 (ToolCallReq.mk "c1" "nosuch" [])
      = "Error executing " ++ "nosuch" ++ ": "
          ++ (ToolErr.notFound (notFoundMsg regC5 "nosuch")
              (regC5.find_similar_tools "nosuch")).str ∧
    (∃ rest, (toolLoopAux regC5 provTwoCalls (3 + 1) 0 0 []).messages
        = [] ++ (provTwoCalls 0).tool_calls.map
            (fun tc => Msg.mk .tool (execToolMsg regC5 tc) (some tc.id)) ++ rest) :=
  ⟨(C5_failures_become_messages regC5 provTwoCalls 3 0 0 []).1
      (ToolCallReq.mk "c1" "nosuch" [])
      (ToolErr.notFound (notFoundMsg regC5 "nosuch")
        (regC5.find_similar_tools "nosuch")) rfl,
   (C5_failures_become_messages regC5 provTwoCalls 3 0 0 []).2.1 (by decide)⟩

/-! ## Lemmas: trimming and the conversation invariant -/

/-- A conversation at or under the limit is left unchanged. -/
theorem trimConversation_le (maxLen : Int) (msgs : List Msg)
    (h : (msgs.length : Int) ≤ maxLen) :
    trimConversation maxLen msgs = msgs := by
  simp [trimConversation, h]

/-- Over the limit with `maxLen ≥ 2`: keep message 0 and the most recent
`maxLen − 1` messages. -/
theorem trimConversation_gt (maxLen : Int) (hN : 2 ≤ maxLen) (m0 : Msg)
    (rest : List Msg) (h : maxLen < (((m0 :: rest).length : Nat) : Int)) :
    trimConversation maxLen (m0 :: rest)
      = m0 :: (m0 :: rest).drop ((m0 :: rest).length - (maxLen.toNat - 1)) := by
  unfold trimConversation
  rw [if_neg (by omega)]
  unfold pySliceFrom
  rw [if_neg (by omega)]
  have h2 : (m0 :: rest).length - (-(1 - maxLen)).toNat
      = (m0 :: rest).length - (maxLen.toNat - 1) := by omega
  rw [h2]

/-- The conversation-shape invariant: the original system message sits at
index 0 and nothing else carries the system role. -/
def headSysInv (sp : String) (st : List Msg) : Prop :=
  ∃ rest, st = Msg.mk .system sp none :: rest ∧
    ∀ m ∈ rest, ¬ m.role = MessageRole.system

/-- Trimming with `maxLen ≥ 2` preserves the invariant. -/
theorem trim_headSysInv (maxLen : Int) (hN : 2 ≤ maxLen) (sp : String)
    (st : List Msg) (h : headSysInv sp st) :
    headSysInv sp (trimConversation maxLen st) := by
  obtain ⟨rest, rfl, hrole⟩ := h
  by_cases hlen : (((Msg.mk .system sp none :: rest).length : Nat) : Int) ≤ maxLen
  · rw [trimConversation_le maxLen _ hlen]
    exact ⟨rest, rfl, hrole⟩
  · rw [trimConversation_gt maxLen hN (Msg.mk .system sp none) rest (by omega)]
    refine ⟨_, rfl, ?_⟩
    intro m hm
    have hk : (Msg.mk .system sp none :: rest).length - (maxLen.toNat - 1)
        = ((Msg.mk .system sp none :: rest).length - (maxLen.toNat - 1) - 1) + 1 := by
      simp only [List.length_cons] at hlen ⊢
      omega
    rw [hk, List.drop_succ_cons] at hm
    exact hrole m (List.drop_subset _ rest hm)

/-- One `chat` turn rewrites the conversation to `trim (st ++ mid)` where
every message of `mid` (user, tool results, assistant) is non-system. -/
theorem chat_messages_shape (reg : ToolRegistry) (provider : Nat → LLMResponse)
    (maxDepth : Nat) (maxLen : Int) (st : List Msg) (u : String) :
    ∃ mid, (Agent.chat reg provider maxDepth maxLen st u).messages
        = trimConversation maxLen (st ++ mid) ∧
      ∀ m ∈ mid, ¬ m.role = MessageRole.system := by
  obtain ⟨suffix, hs, hrole⟩ := toolLoopAux_messages reg provider maxDepth 0 0
    (st ++ [Msg.mk .user u none])
  refine ⟨[Msg.mk .user u none] ++ suffix
      ++ [Msg.mk .assistant
            (processWithTools reg provider maxDepth (st ++ [Msg.mk .user u none])).final
            none], ?_, ?_⟩
  · show trimConversation maxLen _ = _
    congr 1
    rw [(processWithTools_fields reg provider maxDepth
      (st ++ [Msg.mk .user u none])).2.2, hs]
    simp
  · intro m hm
    simp only [List.mem_append, List.mem_singleton] at hm
    rcases hm with (hm | hm) | hm
    · subst hm; simp
    · rw [hrole m hm]; simp
    · subst hm; simp

/-! ## Claim theorems: conversation trimming and the system-message invariant -/

/-- Counterexample to **C6** as stated: the claim quantifies over every
configured maximum conversation length; with `max_conversation_length = 1`
the very first `chat` turn reaches a conversation holding two system
messages (the slice `messages[-0:]` is the whole list, so message 0 is
duplicated by `_trim_conversation`). -/
theorem C6_counterexample :
    Reachable 10 1 "sys" stMaxLenOne ∧
    (stMaxLenOne.filter (fun m => m.role == MessageRole.system)).length = 2 :=
  ⟨Reachable.chatStep regEmpty provPlain "hi" Reachable.init, by decide⟩

/-- Claim C6 (amended): provided the configured maximum conversation length
is at least 2, every conversation state reachable from construction by any
sequence of `chat`, trimming and `reset_conversation` operations has the
original system message at index 0 and no other system message — it is
never evicted. -/
theorem C6_system_message_invariant (maxDepth : Nat) (maxLen : Int) (sp : String)
    (hN : 2 ≤ maxLen) (st : List Msg) (h : Reachable maxDepth maxLen sp st) :
    ∃ rest, st = Msg.mk .system sp none :: rest ∧
      ∀ m ∈ rest, ¬ m.role = MessageRole.system := by
  induction h with
  | init => exact ⟨[], rfl, by simp⟩
  | @chatStep reg provider u st _ ih =>
    obtain ⟨mid, hmsgs, hmid⟩ := chat_messages_shape reg provider maxDepth maxLen st u
    rw [hmsgs]
    obtain ⟨rest, rfl, hrole⟩ := ih
    refine trim_headSysInv maxLen hN sp _ ⟨rest ++ mid, by simp, ?_⟩
    intro m hm
    rcases List.mem_append.mp hm with hm | hm
    · exact hrole m hm
    · exact hmid m hm
  | @trimStep st _ ih => exact trim_headSysInv maxLen hN sp st ih
  | @resetStep st _ ih =>
    obtain ⟨rest, rfl, _⟩ := ih
    exact ⟨[], rfl, by simp⟩

/-- Witness for the amended C6: the state reached after one `chat` turn at
`max_conversation_length = 5`. -/
theorem C6_witness :
    ∃ rest, stChat5 = Msg.mk .system "sys" none :: rest ∧
      ∀ m ∈ rest, ¬ m.role = MessageRole.system :=
  C6_system_message_invariant 10 5 "sys" (by decide) stChat5
    (Reachable.chatStep regEmpty provPlain "hi" Reachable.init)

/-- Counterexample to **C7** as stated: with configured maximum N = 1 and
M = 2 > N accumulated messages, trimming yields 3 messages — `[-(N-1):]`
is `[-0:]`, the whole list — not exactly N. -/
theorem C7_counterexample :
    trimConversation 1 [sysMsg, userHi] = [sysMsg, sysMsg, userHi] ∧
    (trimConversation 1 [sysMsg, userHi]).length = 3 := by
  decide

/-- Claim C7 (amended): for every configured maximum conversation length
N ≥ 2, a conversation of M > N messages trims to exactly N messages —
message 0 unchanged, followed by the original last N−1 messages in order —
while a conversation of length at most N is left unchanged. -/
theorem C7_trim_shape (maxLen : Int) (hN : 2 ≤ maxLen) (msgs : List Msg) :
    ((msgs.length : Int) ≤ maxLen → trimConversation maxLen msgs = msgs) ∧
    (maxLen < (msgs.length : Int) → ∀ m0 rest, msgs = m0 :: rest →
      trimConversation maxLen msgs
          = m0 :: msgs.drop (msgs.length - (maxLen.toNat - 1)) ∧
      (trimConversation maxLen msgs).length = maxLen.toNat ∧
      (trimConversation maxLen msgs).drop 1
          = msgs.drop (msgs.length - (maxLen.toNat - 1))) := by
  refine ⟨fun h => trimConversation_le maxLen msgs h, ?_⟩
  rintro h m0 rest rfl
  have heq := trimConversation_gt maxLen hN m0 rest h
  refine ⟨heq, ?_, by rw [heq, List.drop_succ_cons, List.drop_zero]⟩
  rw [heq]
  simp only [List.length_cons, List.length_drop] at h ⊢
  omega

/-- Witness for the amended C7: a 5-message conversation at N = 3 and at
N = 10. -/
theorem C7_witness :
    trimConversation 3 fiveMsgs
        = sysMsg :: fiveMsgs.drop (fiveMsgs.length - ((3 : Int).toNat - 1)) ∧
    (trimConversation 3 fiveMsgs).length = (3 : Int).toNat ∧
    trimConversation 10 fiveMsgs = fiveMsgs :=
  ⟨(((C7_trim_shape 3 (by decide) fiveMsgs).2 (by decide) sysMsg _ rfl)).1,
   (((C7_trim_shape 3 (by decide) fiveMsgs).2 (by decide) sysMsg _ rfl)).2.1,
   (C7_trim_shape 10 (by decide) fiveMsgs).1 (by decide)⟩

/-! ## Lemmas: schema projection -/

theorem dictInsert_not_mem (d : List (String × ParamSchema)) (k : String)
    (v : ParamSchema) (h : ¬ d.any (fun q => q.1 = k) = true) :
    dictInsert d k v = d ++ [(k, v)] := by
  simp [dictInsert, h]

/-- The `required` accumulator of the `to_json_schema` fold collects the
names of the `required=True` parameters in declaration order. -/
theorem schemaFold_snd :
    ∀ (ps : List ToolParameter) (props : List (String × ParamSchema)) (req : List String),
    (ps.foldl (fun acc p => (dictInsert acc.1 p.name (paramSchemaOf p),
        if p.required then acc.2 ++ [p.name] else acc.2)) (props, req)).2
      = req ++ (ps.filter (fun p => p.required)).map (fun p => p.name) := by
  intro ps
  induction ps with
  | nil => intro props req; simp
  | cons p ps ih =>
    intro props req
    by_cases hp : p.required <;>
      simp [List.filter_cons, hp, ih, List.append_assoc]

/-- With pairwise-distinct parameter names, the `properties` accumulator is
one entry per parameter, in declaration order. -/
theorem schemaFold_fst :
    ∀ (ps : List ToolParameter) (props : List (String × ParamSchema)) (req : List String),
    (∀ p ∈ ps, ¬ props.any (fun q => q.1 = p.name) = true) →
    (ps.map (fun p => p.name)).Nodup →
    (ps.foldl (fun acc p => (dictInsert acc.1 p.name (paramSchemaOf p),
        if p.required then acc.2 ++ [p.name] else acc.2)) (props, req)).1
      = props ++ ps.map (fun p => (p.name, paramSchemaOf p)) := by
  intro ps
  induction ps with
  | nil => intro props req _ _; simp
  | cons p ps ih =>
    intro props req hfresh hnodup
    simp only [List.foldl_cons]
    rw [dictInsert_not_mem props p.name (paramSchemaOf p) (hfresh p (by simp))]
    simp only [List.map_cons, List.nodup_cons] at hnodup
    have hfresh' : ∀ p' ∈ ps,
        ¬ (props ++ [(p.name, paramSchemaOf p)]).any (fun q => q.1 = p'.name) = true := by
      intro p' hp'
      simp only [List.any_append, Bool.or_eq_true, List.any_cons, List.any_nil,
        Bool.or_false, decide_eq_true_eq]
      rintro (habs | habs)
      · exact hfresh p' (by simp [hp']) (by simpa using habs)
      · exact hnodup.1 (habs ▸ List.mem_map_of_mem (fun p => p.name) hp')
    rw [ih (props ++ [(p.name, paramSchemaOf p)])
        (if p.required then req ++ [p.name] else req) hfresh' hnodup.2]
    simp

/-- The registered tool is present (under its metadata name) after
`register`. -/
theorem register_mem (r : ToolRegistry) (t : Tool) :
    (t.metadata.name, t) ∈ (r.register t).tools := by
  unfold ToolRegistry.register
  by_cases h : r.tools.any (fun q => q.1 = t.metadata.name)
  · simp only [if_pos h]
    obtain ⟨q, hq, hq1⟩ := List.any_eq_true.mp h
    refine List.mem_map.mpr ⟨q, hq, ?_⟩
    simp only [decide_eq_true_eq] at hq1
    simp [hq1]
  · simp [h]

/-! ## Claim theorems: schema round-trip -/

/-- Counterexample to **C9** as stated: the claim says `enum` appears on a
parameter's projected schema iff it was declared on that parameter.  A
parameter declared with `enum=[]` (declared, but Python-falsy under the
source's `if param.enum:`) gets no `enum` key. -/
theorem C9_counterexample :
    pEmptyEnum.enum.isSome = true ∧
    toolEmptyEnum.metadata.parameters = [pEmptyEnum] ∧
    ((toolEmptyEnum.to_json_schema.propLookup pEmptyEnum.name).bind
        (fun ps => ps.enum)).isSome = false := by
  decide

/-- Claim C9 (amended): registering a tool and calling `get_tools_for_llm()`
yields a schema entry for it whose `required` list is exactly the names of
the parameters declared `required=True`, in declaration order; and (for
pairwise-distinct parameter names) each parameter's schema carries `enum`
iff a non-empty `enum` list was declared (Python truthiness) and `default`
iff a non-`None` default was declared — as recorded by `paramSchemaOf`. -/
theorem C9_roundtrip_schema (r : ToolRegistry) (t : Tool) :
    (LLMToolEntry.mk t.metadata.name t.metadata.description t.to_json_schema)
        ∈ (r.register t).getToolsForLLM ∧
    t.to_json_schema.required
        = (t.metadata.parameters.filter (fun p => p.required)).map (fun p => p.name) ∧
    ((t.metadata.parameters.map (fun p => p.name)).Nodup →
      t.to_json_schema.properties
          = t.metadata.parameters.map (fun p => (p.name, paramSchemaOf p))) := by
  refine ⟨?_, ?_, ?_⟩
  · exact List.mem_map.mpr ⟨(t.metadata.name, t), register_mem r t, rfl⟩
  · have h := schemaFold_snd t.metadata.parameters [] []
    simpa [Tool.to_json_schema] using h
  · intro hnodup
    have h := schemaFold_fst t.metadata.parameters [] [] (by simp) hnodup
    simpa [Tool.to_json_schema] using h

/-- Witness for the amended C9: the tool `rt` with parameters
`a` (required), `b` (optional, with enum and default) and `c` (required). -/
theorem C9_witness :
    (LLMToolEntry.mk "rt" "round trip" toolRoundTrip.to_json_schema)
        ∈ (regEmpty.register toolRoundTrip).getToolsForLLM ∧
    toolRoundTrip.to_json_schema.required = ["a", "c"] ∧
    toolRoundTrip.to_json_schema.properties
        = toolRoundTrip.metadata.parameters.map (fun p => (p.name, paramSchemaOf p)) :=
  ⟨(C9_roundtrip_schema regEmpty toolRoundTrip).1,
   ((C9_roundtrip_schema regEmpty toolRoundTrip).2.1).trans (by decide),
   (C9_roundtrip_schema regEmpty toolRoundTrip).2.2 (by decide)⟩

/-! ## Lemmas: fuzzy-suggestion scoring and sorting -/

theorem ble_of_not_blt {x y : Score} (h : ¬ Score.blt x y = true) :
    Score.ble y x = true := by
  simp only [Score.blt, decide_eq_true_eq, Nat.not_lt] at h
  simpa [Score.ble] using h

theorem ble_of_blt {x y : Score} (h : Score.blt x y = true) :
    Score.ble x y = true := by
  simp only [Score.blt, decide_eq_true_eq] at h
  simp only [Score.ble, decide_eq_true_eq]
  omega

/-- Transitivity of `≤` on fractions, through a middle fraction with a
positive denominator. -/
theorem ble_trans_mid {x y z : Score} (hy : 0 < y.den)
    (hxy : Score.ble x y = true) (hyz : Score.ble y z = true) :
    Score.ble x z = true := by
  simp only [Score.ble, decide_eq_true_eq] at hxy hyz ⊢
  have h3 : y.den * (x.num * z.den) ≤ y.den * (z.num * x.den) := by
    calc y.den * (x.num * z.den) = x.num * y.den * z.den := by ring
      _ ≤ y.num * x.den * z.den := Nat.mul_le_mul_right _ hxy
      _ = y.num * z.den * x.den := by ring
      _ ≤ z.num * y.den * x.den := Nat.mul_le_mul_right _ hyz
      _ = y.den * (z.num * x.den) := by ring
  exact Nat.le_of_mul_le_mul_left h3 hy

theorem mem_insertDesc (y x : String × Score) :
    ∀ (l : List (String × Score)), y ∈ insertDesc x l ↔ y = x ∨ y ∈ l := by
  intro l
  induction l with
  | nil => simp [insertDesc]
  | cons z zs ih =>
    unfold insertDesc
    by_cases h : Score.blt z.2 x.2 = true
    · rw [if_pos h]
      exact List.mem_cons
    · rw [if_neg h, List.mem_cons, ih, List.mem_cons]
      tauto

theorem pairwise_insertDesc (x : String × Score) :
    ∀ (l : List (String × Score)),
    (∀ y ∈ l, 0 < y.2.den) →
    l.Pairwise (fun a b => Score.ble b.2 a.2 = true) →
    (insertDesc x l).Pairwise (fun a b => Score.ble b.2 a.2 = true) := by
  intro l
  induction l with
  | nil => intro _ _; simp [insertDesc]
  | cons z zs ih =>
    intro hden hpw
    rw [List.pairwise_cons] at hpw
    unfold insertDesc
    by_cases h : Score.blt z.2 x.2 = true
    · rw [if_pos h]
      refine List.pairwise_cons.mpr ⟨?_, List.pairwise_cons.mpr ⟨hpw.1, hpw.2⟩⟩
      intro y hy
      rcases List.mem_cons.mp hy with rfl | hy
      · exact ble_of_blt h
      · exact ble_trans_mid (hden z (by simp)) (hpw.1 y hy) (ble_of_blt h)
    · rw [if_neg h]
      refine List.pairwise_cons.mpr
        ⟨?_, ih (fun y hy => hden y (by simp [hy])) hpw.2⟩
      intro y hy
      rcases (mem_insertDesc y x zs).mp hy with rfl | hy
      · exact ble_of_not_blt h
      · exact hpw.1 y hy

theorem sortDesc_foldl_mem (y : String × Score) :
    ∀ (l acc : List (String × Score)),
    (y ∈ l.foldl (fun acc x => insertDesc x acc) acc ↔ y ∈ acc ∨ y ∈ l) := by
  intro l
  induction l with
  | nil => intro acc; simp
  | cons x xs ih =>
    intro acc
    simp only [List.foldl_cons, ih (insertDesc x acc), mem_insertDesc y x acc,
      List.mem_cons]
    tauto

theorem sortDesc_pairwise :
    ∀ (l acc : List (String × Score)),
    (∀ y ∈ l, 0 < y.2.den) → (∀ y ∈ acc, 0 < y.2.den) →
    acc.Pairwise (fun a b => Score.ble b.2 a.2 = true) →
    (l.foldl (fun acc x => insertDesc x acc) acc).Pairwise
      (fun a b => Score.ble b.2 a.2 = true) := by
  intro l
  induction l with
  | nil => intro acc _ hacc hpw; simpa using hpw
  | cons z zs ih =>
    intro acc hl hacc hpw
    simp only [List.foldl_cons]
    refine ih (insertDesc z acc) (fun w hw => hl w (by simp [hw])) ?_
      (pairwise_insertDesc z acc hacc hpw)
    intro w hw
    rcases (mem_insertDesc w z acc).mp hw with hwz | hw
    · rw [hwz]
      exact hl z (by simp)
    · exact hacc w hw

/-- Membership is preserved by the stable descending sort. -/
theorem mem_sortDescBySnd (y : String × Score) (l : List (String × Score)) :
    y ∈ sortDescBySnd l ↔ y ∈ l := by
  unfold sortDescBySnd
  simpa using sortDesc_foldl_mem y l []

/-- The stable descending sort produces a descending chain of scores (all
denominators positive). -/
theorem sortDescBySnd_pairwise (l : List (String × Score))
    (h : ∀ y ∈ l, 0 < y.2.den) :
    (sortDescBySnd l).Pairwise (fun a b => Score.ble b.2 a.2 = true) := by
  unfold sortDescBySnd
  exact sortDesc_pairwise l [] h (by simp) (by simp)

/-- Every score computed against a nonempty query name has a positive
denominator (the case of two empty strings would divide by zero in the
source). -/
theorem similarityScore_den_pos (a b : String) (h : ¬ a = "") :
    0 < (similarityScore a b).den := by
  have h1 : 0 < (lowerChars a.toList).length := by
    rw [lowerChars, List.length_map]
    cases ha : a.toList with
    | nil => exact absurd (by cases a; simp_all [String.toList]) h
    | cons c cs => simp
  simp only [similarityScore, ratioOf]
  split
  · show 0 < (_ + _) * 10
    omega
  · show 0 < _ + _
    omega

/-! ## Claim theorems: unknown-tool suggestions -/

/-- Claim C8 (confirmed): on the repository's registry, dispatching the
unregistered name `got_status` fails with `ToolNotFound` whose suggestion
list contains `git_status`; in general, for every unregistered name the
dispatch error carries the suggestion list, which holds at most 3
registered names, each with similarity score strictly above `0.4` (ratio
plus the `0.3` substring boost), sorted by score descending (for a
nonempty query, where all scores are well defined), and when no name
qualifies the message instead lists all registered names grouped by
category. -/
theorem C8_unknown_name_suggestions :
    ("git_status" ∈ demonRegistry.find_similar_tools "got_status" ∧
      demonRegistry.executeTool "got_status" []
        = Except.error (ToolErr.notFound (notFoundMsg demonRegistry "got_status")
            (demonRegistry.find_similar_tools "got_status"))) ∧
    (∀ (r : ToolRegistry) (name : String) (args : Args),
      r.get_tool name = none →
      (r.executeTool name args
          = Except.error (ToolErr.notFound (notFoundMsg r name)
              (r.find_similar_tools name))) ∧
      (r.find_similar_tools name).length ≤ 3 ∧
      (∀ s ∈ r.find_similar_tools name,
        Score.blt (Score.mk 2 5) (similarityScore name s) = true ∧
        s ∈ r.tools.map Prod.fst) ∧
      (¬ name = "" →
        (r.find_similar_tools name).Pairwise
          (fun s t => Score.ble (similarityScore name t)
              (similarityScore name s) = true)) ∧
      (r.find_similar_tools name = [] →
        notFoundMsg r name
          = "Tool '" ++ name ++ "' does not exist."
            ++ "\n\nNo similar tools found. Available tools:\n"
            ++ categoryListing r)) := by
  constructor
  · exact ⟨by decide, rfl⟩
  intro r name args hnone
  refine ⟨by simp [ToolRegistry.executeTool, hnone], ?_, ?_, ?_, ?_⟩
  · unfold ToolRegistry.find_similar_tools
    rw [List.length_map]
    calc (List.filter _ (List.take 3 _)).length
        ≤ (List.take 3 _).length := List.length_filter_le _ _
      _ ≤ 3 := by rw [List.length_take]; omega
  · intro s hs
    unfold ToolRegistry.find_similar_tools at hs
    obtain ⟨p, hp, rfl⟩ := List.mem_map.mp hs
    obtain ⟨hpt, hppred⟩ := List.mem_filter.mp hp
    have hpsim : p ∈ r.tools.map (fun q => (q.1, similarityScore name q.1)) :=
      (mem_sortDescBySnd p _).mp (List.take_subset 3 _ hpt)
    obtain ⟨q, hq, rfl⟩ := List.mem_map.mp hpsim
    exact ⟨by simpa using hppred, List.mem_map_of_mem Prod.fst hq⟩
  · intro hne
    unfold ToolRegistry.find_similar_tools
    rw [List.pairwise_map]
    have hsorted : (sortDescBySnd (r.tools.map
        (fun q => (q.1, similarityScore name q.1)))).Pairwise
        (fun a b => Score.ble b.2 a.2 = true) := by
      refine sortDescBySnd_pairwise _ ?_
      intro y hy
      obtain ⟨q, _, rfl⟩ := List.mem_map.mp hy
      exact similarityScore_den_pos name q.1 hne
    have hsub : List.Sublist
        ((List.take 3 (sortDescBySnd (r.tools.map
          (fun q => (q.1, similarityScore name q.1))))).filter
            (fun q => Score.blt (Score.mk 2 5) q.2))
        (sortDescBySnd (r.tools.map (fun q => (q.1, similarityScore name q.1)))) :=
      (List.filter_sublist _).trans (List.take_sublist 3 _)
    have hpwf := hsorted.sublist hsub
    refine hpwf.imp_of_mem ?_
    intro a b ha hb hr
    have hfact : ∀ p, p ∈ (List.take 3 (sortDescBySnd (r.tools.map
        (fun q => (q.1, similarityScore name q.1))))).filter
          (fun q => Score.blt (Score.mk 2 5) q.2) →
        p.2 = similarityScore name p.1 := by
      intro p hp
      have hpsim : p ∈ r.tools.map (fun q => (q.1, similarityScore name q.1)) :=
        (mem_sortDescBySnd p _).mp (List.take_subset 3 _ ((List.mem_filter.mp hp).1))
      obtain ⟨q, _, rfl⟩ := List.mem_map.mp hpsim
      rfl
    rw [← hfact a ha, ← hfact b hb]
    exact hr
  · intro hempty
    simp [notFoundMsg, hempty]

/-- Witness for C8's universally quantified part, at the repository
registry with query `got_status` and at the empty registry with query
`zzz` (no suggestion qualifies there). -/
theorem C8_witness :
    (demonRegistry.find_similar_tools "got_status").length ≤ 3 ∧
    (Score.blt (Score.mk 2 5) (similarityScore "got_status" "git_status") = true ∧
      "git_status" ∈ demonRegistry.tools.map Prod.fst) ∧
    (demonRegistry.find_similar_tools "got_status").Pairwise
      (fun s t => Score.ble (similarityScore "got_status" t)
          (similarityScore "got_status" s) = true) ∧
    notFoundMsg regEmpty "zzz"
      = "Tool '" ++ "zzz" ++ "' does not exist."
        ++ "\n\nNo similar tools found. Available tools:\n"
        ++ categoryListing regEmpty :=
  ⟨(C8_unknown_name_suggestions.2 demonRegistry "got_status" [] rfl).2.1,
   (C8_unknown_name_suggestions.2 demonRegistry "got_status" [] rfl).2.2.1
      "git_status" (by decide),
   (C8_unknown_name_suggestions.2 demonRegistry "got_status" [] rfl).2.2.2.1
      (by decide),
   (C8_unknown_name_suggestions.2 regEmpty "zzz" [] rfl).2.2.2.2 rfl⟩

end CodeDemon
